import Mathlib

/-!
Shallow embedding of the evaluation and region-selection core of the rgrg
repository, translated from src/full_model/evaluate_full_model.py and
src/object_detector/custom_roi_heads.py.  Box corners, scores and losses are
modelled over the rationals; tensors are modelled as lists; the fixed region
taxonomy has 36 entries throughout.
-/

/-! ### Boxes and overlap sums (evaluate_full_model.py, update_object_detector_metrics) -/

/-- An axis-aligned box given by its 4 corner values x0, y0, x1, y1, one entry
of a source tensor of shape [..., 4]. -/
structure Box where
  x0 : ℚ
  y0 : ℚ
  x1 : ℚ
  y1 : ℚ
deriving DecidableEq

/-- Translation of compute_box_area (evaluate_full_model.py lines 471-486):
the signed area (x1 - x0) * (y1 - y0) of a box. -/
def compute_box_area (b : Box) : ℚ :=
  (b.x1 - b.x0) * (b.y1 - b.y0)

/-- Translation of lines 499-505: the intersection box built from the
elementwise max of the lower corners and min of the upper corners. -/
def intersection_box (pred gt : Box) : Box :=
  ⟨max pred.x0 gt.x0, max pred.y0 gt.y0, min pred.x1 gt.x1, min pred.y1 gt.y1⟩

/-- Translation of valid_intersection (lines 514-518): the intersection
corners are strictly ordered and the region was detected. -/
def valid_intersection (pred gt : Box) (class_detected : Bool) : Bool :=
  (decide (max pred.x0 gt.x0 < min pred.x1 gt.x1) &&
    decide (max pred.y0 gt.y0 < min pred.y1 gt.y1)) && class_detected

/-- Per-entry contribution to the intersection-area sum (lines 508 and
521-525): the raw intersection area, replaced by 0 when the intersection is
not valid. -/
def intersection_area_entry (pred gt : Box) (class_detected : Bool) : ℚ :=
  if valid_intersection pred gt class_detected then
    compute_box_area (intersection_box pred gt)
  else 0

/-- Per-entry contribution to the union-area sum (line 512): computed from the
raw intersection area before the zeroing of line 521, and never gated on
valid_intersection. -/
def union_area_entry (pred gt : Box) : ℚ :=
  compute_box_area pred + compute_box_area gt - compute_box_area (intersection_box pred gt)

/-- One (predicted box, ground-truth box, class_detected) entry of a fixed
region, ranging over the images of the pass. -/
def OverlapEntry : Type := Box × Box × Bool

instance : DecidableEq OverlapEntry := by
  unfold OverlapEntry
  infer_instance

/-- Sum of the intersection-area contributions of one region over the batch
dimension (line 528), accumulated over batches by the running sum of line
539; a whole pass is the concatenation of its batch entry lists. -/
def sum_intersection_area (entries : List OverlapEntry) : ℚ :=
  (entries.map fun e => intersection_area_entry e.1 e.2.1 e.2.2).sum

/-- Sum of the union-area contributions of one region over the batch dimension
(line 529), accumulated over batches by the running sum of line 540. -/
def sum_union_area (entries : List OverlapEntry) : ℚ :=
  (entries.map fun e => union_area_entry e.1 e.2.1).sum

/-- Reduction avg_iou_per_region for one region (line 705): summed
intersection area divided by summed union area. -/
def avg_iou (entries : List OverlapEntry) : ℚ :=
  sum_intersection_area entries / sum_union_area entries

/-- Swapping which box of an entry is called predicted and which ground truth,
keeping the detected flag. -/
def swap_entry (e : OverlapEntry) : OverlapEntry :=
  (e.2.1, e.1, e.2.2)

/-! ### Confusion-count metrics (torchmetrics Precision and Recall objects) -/

/-- Confusion counts of a binary-decision metric over the positive class. -/
structure ConfusionCounts where
  tp : ℕ
  fp : ℕ
  fn : ℕ
  tn : ℕ
deriving DecidableEq

/-- One torchmetrics Precision or Recall instance: its accumulated confusion
counts plus the number of update invocations it has received so far. -/
structure MetricState where
  counts : ConfusionCounts
  calls : ℕ
deriving DecidableEq

/-- Adding the confusion counts of a list of (prediction, target) pairs. -/
def add_counts (c : ConfusionCounts) (pairs : List (Bool × Bool)) : ConfusionCounts :=
  { tp := c.tp + pairs.countP (fun p => p.1 && p.2),
    fp := c.fp + pairs.countP (fun p => p.1 && !p.2),
    fn := c.fn + pairs.countP (fun p => !p.1 && p.2),
    tn := c.tn + pairs.countP (fun p => !p.1 && !p.2) }

/-- Calling a torchmetrics metric object on (preds, targets): the confusion
counts are updated with the paired entries and one more update invocation is
recorded. -/
def metric_call (m : MetricState) (preds targets : List Bool) : MetricState :=
  { counts := add_counts m.counts (preds.zip targets), calls := m.calls + 1 }

/-- Boolean-mask tensor indexing t[mask]: keeps the entries whose mask value
is true, in order. -/
def mask_select {α : Type} (mask : List Bool) (xs : List α) : List α :=
  ((xs.zip mask).filter (fun p => p.2)).map (fun p => p.1)

/-- The six torchmetrics objects of region_selection_scores
(evaluate_full_model.py lines 601-613): precision and recall for each of the
subsets all, normal and abnormal. -/
structure RegionSelectionScores where
  all_precision : MetricState
  all_recall : MetricState
  normal_precision : MetricState
  normal_recall : MetricState
  abnormal_precision : MetricState
  abnormal_recall : MetricState
deriving DecidableEq

/-- A freshly constructed region_selection_scores dict: every metric has zero
counts and has received zero update calls. -/
def initial_region_selection_scores : RegionSelectionScores :=
  ⟨⟨⟨0, 0, 0, 0⟩, 0⟩, ⟨⟨0, 0, 0, 0⟩, 0⟩, ⟨⟨0, 0, 0, 0⟩, 0⟩,
    ⟨⟨0, 0, 0, 0⟩, 0⟩, ⟨⟨0, 0, 0, 0⟩, 0⟩, ⟨⟨0, 0, 0, 0⟩, 0⟩⟩

/-- Translation of update_region_selection_metrics (evaluate_full_model.py
lines 446-467).  The [batch_size x 36] boolean tensors are modelled flattened
into region-level entry lists; the normal and abnormal arguments are the
mask selections of lines 454-458, and all six metric objects are invoked
unconditionally as in lines 460-467. -/
def update_region_selection_metrics (s : RegionSelectionScores)
    (selected_regions region_has_sentence region_is_abnormal : List Bool) :
    RegionSelectionScores :=
  let normal_selected_regions :=
    mask_select (region_is_abnormal.map (fun b => !b)) selected_regions
  let normal_region_has_sentence :=
    mask_select (region_is_abnormal.map (fun b => !b)) region_has_sentence
  let abnormal_selected_regions := mask_select region_is_abnormal selected_regions
  let abnormal_region_has_sentence := mask_select region_is_abnormal region_has_sentence
  { all_precision := metric_call s.all_precision selected_regions region_has_sentence,
    all_recall := metric_call s.all_recall selected_regions region_has_sentence,
    normal_precision := metric_call s.normal_precision normal_selected_regions normal_region_has_sentence,
    normal_recall := metric_call s.normal_recall normal_selected_regions normal_region_has_sentence,
    abnormal_precision := metric_call s.abnormal_precision abnormal_selected_regions abnormal_region_has_sentence,
    abnormal_recall := metric_call s.abnormal_recall abnormal_selected_regions abnormal_region_has_sentence }

/-- The two torchmetrics objects of region_abnormal_scores (lines 625-628);
the source dict keys are precision and recall. -/
structure RegionAbnormalScores where
  precision : MetricState
  recall_score : MetricState
deriving DecidableEq

/-- Translation of update_region_abnormal_metrics (evaluate_full_model.py
lines 429-443): only the entries whose class_detected flag is true are kept
(boolean-mask indexing of lines 439-440) before the two metrics are
updated. -/
def update_region_abnormal_metrics (s : RegionAbnormalScores)
    (predicted_abnormal_regions region_is_abnormal class_detected : List Bool) :
    RegionAbnormalScores :=
  let detected_predicted_abnormal_regions :=
    mask_select class_detected predicted_abnormal_regions
  let detected_region_is_abnormal := mask_select class_detected region_is_abnormal
  { precision := metric_call s.precision detected_predicted_abnormal_regions detected_region_is_abnormal,
    recall_score := metric_call s.recall_score detected_predicted_abnormal_regions detected_region_is_abnormal }

/-! ### Language-model score buffers (evaluate_full_model.py, update_language_model_scores) -/

/-- The per-subset metric buffers of language_model_scores (lines 357-362).
Each metric instance owns an append-only list of (prediction, reference)
pairs; all metrics of one subset receive the same add_batch arguments, so one
buffer per subset captures what every metric of that subset is fed. -/
structure LanguageModelBuffers where
  all : List (String × String)
  normal : List (String × String)
  abnormal : List (String × String)
deriving DecidableEq

/-- One add_batch call of a metric object from the evaluate library: the
(prediction, reference) pairs are appended to the running corpus. -/
def add_batch (buffer : List (String × String))
    (predictions references : List String) : List (String × String) :=
  buffer ++ predictions.zip references

/-- Translation of update_language_model_scores together with
get_sents_for_normal_abnormal_selected_regions (evaluate_full_model.py lines
297-337).  selected_region_is_abnormal is the abnormality flag of each
selected region, already mask-selected from region_is_abnormal at line 299.
The normal and abnormal add_batch calls are guarded by the emptiness checks
of lines 331 and 335; the all-subset call of lines 320-321 is not. -/
def update_language_model_scores (s : LanguageModelBuffers)
    (generated_sentences_for_selected_regions reference_sentences_for_selected_regions :
      List String)
    (selected_region_is_abnormal : List Bool) : LanguageModelBuffers :=
  let gen_normal := mask_select (selected_region_is_abnormal.map (fun b => !b))
    generated_sentences_for_selected_regions
  let gen_abnormal := mask_select selected_region_is_abnormal
    generated_sentences_for_selected_regions
  let ref_normal := mask_select (selected_region_is_abnormal.map (fun b => !b))
    reference_sentences_for_selected_regions
  let ref_abnormal := mask_select selected_region_is_abnormal
    reference_sentences_for_selected_regions
  { all := add_batch s.all generated_sentences_for_selected_regions
      reference_sentences_for_selected_regions,
    normal := if ref_normal.length ≠ 0 then add_batch s.normal gen_normal ref_normal
      else s.normal,
    abnormal := if ref_abnormal.length ≠ 0 then add_batch s.abnormal gen_abnormal ref_abnormal
      else s.abnormal }

/-- One generated/reference pair as rendered by write_sentences_to_file
(evaluate_full_model.py lines 290-294): a reference equal to the sentinel
hash string is replaced by the empty string when writing. -/
def sentence_pair_lines (gen_sent ref_sent : String) : String :=
  "Generated sentence: " ++ gen_sent ++ "\n" ++
    "Reference sentence: " ++ (if ref_sent = "#" then "" else ref_sent) ++ "\n\n"

/-- Translation of write_sentences_to_file: the full text written for the
zipped generated/reference sentence lists. -/
def write_sentences_to_file (generated_sentences reference_sentences : List String) : String :=
  ((generated_sentences.zip reference_sentences).map
    (fun p => sentence_pair_lines p.1 p.2)).foldl (fun a b => a ++ b) ""

/-! ### Top region-feature selection (custom_roi_heads.py, get_top_region_features) -/

/-- Largest element of a nonempty list of scores, the value selected by
torch.max over one dimension; 0 on the empty list, which torch rejects. -/
def max_list : List ℚ → ℚ
  | [] => 0
  | [x] => x
  | x :: y :: ys => max x (max_list (y :: ys))

/-- First-occurrence arg-max index of a list of scores, the index returned by
torch.argmax over one dimension (the index of the first maximal value);
0 on the empty list, which torch rejects. -/
def argmax_idx : List ℚ → ℕ
  | [] => 0
  | [_] => 0
  | x :: y :: ys => if x < max_list (y :: ys) then argmax_idx (y :: ys) + 1 else 0

/-- Predicted class of one proposal (custom_roi_heads.py line 94): the arg max
of its 36 per-region scores, the background column being already removed at
line 76.  The scores are softmax outputs and hence strictly positive. -/
def pred_class (row : List ℚ) : ℕ := argmax_idx row

/-- Column r of the masked score matrix pred_top_scores_image (lines 97-100):
the proposal keeps its score for r when r is its predicted class and is set
to 0.0 otherwise. -/
def masked_column (pred_scores_image : List (List ℚ)) (r : ℕ) : List ℚ :=
  pred_scores_image.map (fun row => if pred_class row = r then row.getD r 0 else 0)

/-- Row index selected for region r: entry r of inds_regions_with_top_scores,
the per-column arg max of line 103. -/
def selected_proposal_idx (pred_scores_image : List (List ℚ)) (r : ℕ) : ℕ :=
  argmax_idx (masked_column pred_scores_image r)

/-- Translation of inds_regions_with_top_scores (line 103). -/
def inds_regions_with_top_scores (pred_scores_image : List (List ℚ)) : List ℕ :=
  (List.range 36).map (fun r => selected_proposal_idx pred_scores_image r)

/-- Translation of num_predictions_per_class (line 107): the column sums of
the one-hot predicted-class mask. -/
def num_predictions_per_class (pred_scores_image : List (List ℚ)) (r : ℕ) : ℕ :=
  pred_scores_image.countP (fun row => pred_class row == r)

/-- Translation of class_not_predicted (line 110). -/
def class_not_predicted (pred_scores_image : List (List ℚ)) : List Bool :=
  (List.range 36).map (fun r => num_predictions_per_class pred_scores_image r == 0)

/-- Translation of the per-image body of get_top_region_features
(custom_roi_heads.py lines 92-119).  pred_scores_image holds one row of 36
positive softmax scores per proposal; region_features_image holds one feature
vector per proposal.  The result is none when the image has zero proposals:
torch.argmax at line 103 then reduces over an empty dimension, which raises
a runtime error. -/
def get_top_region_features_image (pred_scores_image : List (List ℚ))
    (region_features_image : List (List ℚ)) : Option (List (List ℚ) × List Bool) :=
  if pred_scores_image.isEmpty then none
  else
    some ((inds_regions_with_top_scores pred_scores_image).map
      (fun i => region_features_image.getD i []),
      class_not_predicted pred_scores_image)

/-! ### Object-detector averages (evaluate_full_model.py lines 533-540 and 702-709) -/

/-- Column sums of class_detected over all images of the pass: line 534 sums
over the batch dimension and line 538 accumulates the batches, so entry r
counts in how many of the images region r was detected. -/
def sum_region_detected (class_detected_images : List (List Bool)) : List ℕ :=
  (List.range 36).map (fun r => class_detected_images.countP (fun img => img.getD r false))

/-- Reduction avg_detections_per_region (line 709): the per-region detected
counts divided by the total number of images seen. -/
def avg_detections_per_region (class_detected_images : List (List Bool))
    (num_images : ℕ) : List ℚ :=
  (sum_region_detected class_detected_images).map (fun c : ℕ => (c : ℚ) / num_images)

/-- Reduction avg_num_detected_regions_per_image (line 708): the sum over the
36 regions of the per-region averages. -/
def avg_num_detected_regions_per_image (class_detected_images : List (List Bool))
    (num_images : ℕ) : ℚ :=
  (avg_detections_per_region class_detected_images num_images).sum

/-! ### Best-checkpoint decision (evaluate_full_model.py, evaluate_model lines 767-780) -/

/-- Zero-padded three-digit rendering of a number of thousandths. -/
def pad3 (k : ℕ) : String :=
  if k < 10 then "00" ++ toString k
  else if k < 100 then "0" ++ toString k
  else toString k

/-- Rounding to the nearest integer, ties to even, as Python string formatting
rounds a value scaled to thousandths. -/
def round_half_even (x : ℚ) : ℤ :=
  let f : ℤ := ⌊x⌋
  let r : ℚ := x - (f : ℚ)
  if r < 1 / 2 then f
  else if 1 / 2 < r then f + 1
  else if f % 2 = 0 then f else f + 1

/-- Rendering of a loss value with three decimal places, as the Python
f-string of line 778 formats it. -/
def fmt3 (q : ℚ) : String :=
  let n : ℤ := round_half_even (q * 1000)
  (if n < 0 then "-" else "") ++ toString (n.natAbs / 1000) ++ "." ++ pad3 (n.natAbs % 1000)

/-- The run_params entries read and written by the best-checkpoint decision of
evaluate_model; the model state snapshot is modelled as a list of parameter
values. -/
structure RunParams where
  lowest_val_loss : ℚ
  best_epoch : ℕ
  best_model_save_path : String
  best_model_state : List ℚ
  epoch : ℕ
  weights_folder_path : String
deriving DecidableEq

/-- Translation of evaluate_model lines 773-780: when the total validation
loss of the pass is strictly below the best seen, the four best-checkpoint
entries are rewritten; the save path joins the weights folder with a file
name embedding the new lowest loss (three decimals) and the new best epoch.
The source updates lowest_val_loss and best_epoch first and then reads them
back when building the path, so the path uses total_val_loss and the current
epoch. -/
def update_best_checkpoint (run_params : RunParams) (total_val_loss : ℚ)
    (model_state : List ℚ) : RunParams :=
  if total_val_loss < run_params.lowest_val_loss then
    { run_params with
      lowest_val_loss := total_val_loss,
      best_epoch := run_params.epoch,
      best_model_save_path := run_params.weights_folder_path ++ "/" ++ "val_loss_" ++
        fmt3 total_val_loss ++ "_epoch_" ++ toString run_params.epoch ++ ".pth",
      best_model_state := model_state }
  else run_params

/-! ### Validation-loss normalization (evaluate_full_model.py lines 684-700) -/

/-- Accumulation of one loss stream over the validation loop: each batch
contributes its batch-mean loss (as returned by the model) times its batch
size (lines 686-687).  The total loss and every per-module loss follow this
same code path with the same batch sizes. -/
def sum_weighted_losses (batches : List (ℚ × ℕ)) : ℚ :=
  batches.foldl (fun acc b => acc + b.1 * (b.2 : ℚ)) 0

/-- Normalization of lines 699-700: the accumulated weighted sum is divided by
len(val_dl), the number of batches of the validation loader. -/
def reported_val_loss (batches : List (ℚ × ℕ)) : ℚ :=
  sum_weighted_losses batches / (batches.length : ℚ)

/-- Stated from the spec wording, for contrast only: the per-image mean loss,
dividing the same weighted sum by the total number of images instead. -/
def spec_per_image_mean_loss (batches : List (ℚ × ℕ)) : ℚ :=
  sum_weighted_losses batches / ((batches.map (fun b => b.2)).sum : ℚ)

/-! ### Helper lemmas -/

/-- Updating a metric with an empty pair list leaves its confusion counts
unchanged. -/
lemma add_counts_nil (c : ConfusionCounts) : add_counts c [] = c := by
  cases c
  simp [add_counts]

/-- mask_select on a cons cell keeps or drops the head according to the head
of the mask. -/
lemma mask_select_cons {α : Type} (d : Bool) (dt : List Bool) (x : α) (xt : List α) :
    mask_select (d :: dt) (x :: xt) =
      if d then x :: mask_select dt xt else mask_select dt xt := by
  cases d <;> simp [mask_select]

/-- mask_select over an all-false mask keeps nothing. -/
lemma mask_select_all_false {α : Type} (mask : List Bool) (xs : List α)
    (h : ∀ b ∈ mask, b = false) : mask_select mask xs = [] := by
  induction mask generalizing xs with
  | nil => simp [mask_select]
  | cons d dt ih =>
    cases xs with
    | nil => simp [mask_select]
    | cons x xt =>
      have hd : d = false := h d (List.mem_cons_self d dt)
      rw [mask_select_cons, hd]
      simp only [Bool.false_eq_true, if_false]
      exact ih xt (fun b hb => h b (List.mem_cons_of_mem d hb))

/-- Masking two equally long lists and zipping the results is the same as
masking the zipped list. -/
lemma mask_select_zip {α β : Type} (mask : List Bool) (xs : List α) (ys : List β)
    (h : xs.length = ys.length) :
    (mask_select mask xs).zip (mask_select mask ys) = mask_select mask (xs.zip ys) := by
  induction mask generalizing xs ys with
  | nil => simp [mask_select]
  | cons d dt ih =>
    cases xs with
    | nil =>
      have : ys = [] := by
        cases ys with
        | nil => rfl
        | cons y yt => simp at h
      subst this
      simp [mask_select]
    | cons x xt =>
      cases ys with
      | nil => simp at h
      | cons y yt =>
        have hlen : xt.length = yt.length := by simpa using h
        cases d with
        | false => simp [mask_select_cons, ih xt yt hlen]
        | true => simp [mask_select_cons, ih xt yt hlen]

/-- Inserting an entry whose mask value is false anywhere leaves the mask
selection unchanged. -/
lemma mask_select_insertIdx_false {α : Type} (i : ℕ) (mask : List Bool) (xs : List α)
    (x : α) (hi : i ≤ mask.length) (hl : mask.length = xs.length) :
    mask_select (mask.insertIdx i false) (xs.insertIdx i x) = mask_select mask xs := by
  induction i generalizing mask xs with
  | zero =>
    cases mask with
    | nil =>
      have : xs = [] := by
        cases xs with
        | nil => rfl
        | cons a t => simp at hl
      subst this
      simp [mask_select]
    | cons d dt =>
      cases xs with
      | nil => simp at hl
      | cons a t => simp [List.insertIdx, mask_select_cons]
  | succ k ih =>
    cases mask with
    | nil => simp at hi
    | cons d dt =>
      cases xs with
      | nil => simp at hl
      | cons a t =>
        have hi2 : k ≤ dt.length := by simpa using hi
        have hl2 : dt.length = t.length := by simpa using hl
        simp only [List.insertIdx_succ_cons]
        rw [mask_select_cons, mask_select_cons, ih dt t hi2 hl2]

/-- Folding addition of mapped values from an initial accumulator is the
initial value plus the sum of the mapped list. -/
lemma foldl_add_map_eq_sum {α : Type} (f : α → ℚ) (l : List α) (init : ℚ) :
    l.foldl (fun acc b => acc + f b) init = init + (l.map f).sum := by
  induction l generalizing init with
  | nil => simp
  | cons x t ih => simp [ih, add_assoc]

/-- Dividing each element of a list and summing is the same as summing and
dividing once. -/
lemma sum_map_div (l : List ℚ) (d : ℚ) : (l.map (fun x => x / d)).sum = l.sum / d := by
  induction l with
  | nil => simp
  | cons x t ih => simp [ih, add_div]

/-- Summing natural-number casts is the cast of the sum. -/
lemma sum_map_cast (l : List ℕ) : (l.map (fun c : ℕ => (c : ℚ))).sum = (l.sum : ℚ) := by
  induction l with
  | nil => simp
  | cons x t ih =>
    simp only [List.map_cons, List.sum_cons, ih, List.sum_cons]
    push_cast
    ring

/-- getD through a map, for an index within bounds. -/
lemma getD_map_eq {α β : Type} (f : α → β) (l : List α) (p : ℕ) (hp : p < l.length)
    (d : α) (d2 : β) : (l.map f).getD p d2 = f (l.getD p d) := by
  rw [List.getD_eq_getElem _ _ (by simpa using hp), List.getD_eq_getElem _ _ hp,
    List.getElem_map]

/-- getD on List.range, for an index within bounds. -/
lemma getD_range_eq (n r : ℕ) (hr : r < n) (d : ℕ) : (List.range n).getD r d = r := by
  rw [List.getD_eq_getElem _ _ (by simpa using hr)]
  simp

/-! ### Claim C1 -/

/-- C1, as stated, is false at a concrete input: for an entry whose
intersection is invalid because the region was not detected, the entry
contributes 0 to the intersection-area sum but contributes its full
pred-area + gt-area - raw-intersection-area (here 1) to the union-area sum,
because update_object_detector_metrics computes union_area before zeroing the
invalid intersections and never gates the union sum on validity. -/
theorem C1_counterexample :
    valid_intersection ⟨0, 0, 1, 1⟩ ⟨0, 0, 1, 1⟩ false = false ∧
    sum_intersection_area [(⟨0, 0, 1, 1⟩, ⟨0, 0, 1, 1⟩, false)] = 0 ∧
    sum_union_area [(⟨0, 0, 1, 1⟩, ⟨0, 0, 1, 1⟩, false)] ≠ 0 := by
  refine ⟨by decide, ?_, ?_⟩
  · norm_num [sum_intersection_area, intersection_area_entry, valid_intersection,
      compute_box_area, intersection_box]
  · norm_num [sum_union_area, union_area_entry, compute_box_area, intersection_box,
      max_def, min_def]

/-- C1 amended: in every OverlapQualityAccumulator update, an entry whose
intersection is invalid (corners not strictly ordered, or region not
detected) contributes zero to the running intersection-area sum, but it still
contributes pred-area + gt-area - raw-intersection-area to the running
union-area sum for that batch; only the intersection sum is gated on
validity. -/
theorem C1_invalid_entry_contributions (pred gt : Box) (class_detected : Bool)
    (rest : List OverlapEntry)
    (h : valid_intersection pred gt class_detected = false) :
    sum_intersection_area ((pred, gt, class_detected) :: rest) =
      sum_intersection_area rest ∧
    sum_union_area ((pred, gt, class_detected) :: rest) =
      (compute_box_area pred + compute_box_area gt -
        compute_box_area (intersection_box pred gt)) + sum_union_area rest := by
  constructor
  · simp [sum_intersection_area, intersection_area_entry, h]
  · simp [sum_union_area, union_area_entry]

/-- Witness for C1_invalid_entry_contributions at a concrete invalid entry. -/
theorem C1_witness :
    valid_intersection ⟨0, 0, 1, 1⟩ ⟨0, 0, 1, 1⟩ false = false ∧
    (sum_intersection_area [(⟨0, 0, 1, 1⟩, ⟨0, 0, 1, 1⟩, false)] =
      sum_intersection_area [] ∧
    sum_union_area [(⟨0, 0, 1, 1⟩, ⟨0, 0, 1, 1⟩, false)] =
      (compute_box_area ⟨0, 0, 1, 1⟩ + compute_box_area ⟨0, 0, 1, 1⟩ -
        compute_box_area (intersection_box ⟨0, 0, 1, 1⟩ ⟨0, 0, 1, 1⟩)) +
        sum_union_area []) :=
  ⟨by decide, C1_invalid_entry_contributions ⟨0, 0, 1, 1⟩ ⟨0, 0, 1, 1⟩ false [] (by decide)⟩

/-! ### Claim C2 -/

/-- C2, as stated, is false at a concrete input: for a batch whose entries are
all abnormal, the normal subset is empty, yet update_region_selection_metrics
still invokes the normal-subset precision metric (its update-call counter
moves from 0 to 1); the source has no emptiness guard. -/
theorem C2_counterexample :
    mask_select (([true] : List Bool).map (fun b => !b)) [true] = ([] : List Bool) ∧
    (update_region_selection_metrics initial_region_selection_scores
      [true] [true] [true]).normal_precision.calls ≠
      initial_region_selection_scores.normal_precision.calls := by
  constructor
  · decide
  · decide

/-- C2 amended: for every batch and every subset in normal/abnormal, if the
batch contains zero region-level entries belonging to that subset, that
subset's update is still invoked (with empty filtered arrays), but an empty
update adds zero to every confusion count, so the subset's confusion counts
after the batch equal the counts before it. -/
theorem C2_empty_subset_update (s : RegionSelectionScores)
    (selected_regions region_has_sentence region_is_abnormal : List Bool) :
    ((∀ b ∈ region_is_abnormal, b = true) →
      (update_region_selection_metrics s selected_regions region_has_sentence
        region_is_abnormal).normal_precision.counts = s.normal_precision.counts ∧
      (update_region_selection_metrics s selected_regions region_has_sentence
        region_is_abnormal).normal_recall.counts = s.normal_recall.counts ∧
      (update_region_selection_metrics s selected_regions region_has_sentence
        region_is_abnormal).normal_precision.calls = s.normal_precision.calls + 1 ∧
      (update_region_selection_metrics s selected_regions region_has_sentence
        region_is_abnormal).normal_recall.calls = s.normal_recall.calls + 1) ∧
    ((∀ b ∈ region_is_abnormal, b = false) →
      (update_region_selection_metrics s selected_regions region_has_sentence
        region_is_abnormal).abnormal_precision.counts = s.abnormal_precision.counts ∧
      (update_region_selection_metrics s selected_regions region_has_sentence
        region_is_abnormal).abnormal_recall.counts = s.abnormal_recall.counts ∧
      (update_region_selection_metrics s selected_regions region_has_sentence
        region_is_abnormal).abnormal_precision.calls = s.abnormal_precision.calls + 1 ∧
      (update_region_selection_metrics s selected_regions region_has_sentence
        region_is_abnormal).abnormal_recall.calls = s.abnormal_recall.calls + 1) := by
  constructor
  · intro hall
    have hmask : ∀ b ∈ region_is_abnormal.map (fun b => !b), b = false := by
      intro b hb
      obtain ⟨a, ha, rfl⟩ := List.mem_map.mp hb
      rw [hall a ha]
      rfl
    have h1 : mask_select (region_is_abnormal.map (fun b => !b)) selected_regions =
        ([] : List Bool) := mask_select_all_false _ _ hmask
    have h2 : mask_select (region_is_abnormal.map (fun b => !b)) region_has_sentence =
        ([] : List Bool) := mask_select_all_false _ _ hmask
    simp [update_region_selection_metrics, metric_call, h1, h2, add_counts_nil]
  · intro hall
    have h1 : mask_select region_is_abnormal selected_regions = ([] : List Bool) :=
      mask_select_all_false _ _ hall
    have h2 : mask_select region_is_abnormal region_has_sentence = ([] : List Bool) :=
      mask_select_all_false _ _ hall
    simp [update_region_selection_metrics, metric_call, h1, h2, add_counts_nil]

/-- Witness for C2_empty_subset_update on a batch whose entries are all
abnormal (the normal subset is empty). -/
theorem C2_witness :
    (∀ b ∈ ([true] : List Bool), b = true) ∧
    ((update_region_selection_metrics initial_region_selection_scores
      [true] [true] [true]).normal_precision.counts =
        initial_region_selection_scores.normal_precision.counts ∧
    (update_region_selection_metrics initial_region_selection_scores
      [true] [true] [true]).normal_recall.counts =
        initial_region_selection_scores.normal_recall.counts ∧
    (update_region_selection_metrics initial_region_selection_scores
      [true] [true] [true]).normal_precision.calls =
        initial_region_selection_scores.normal_precision.calls + 1 ∧
    (update_region_selection_metrics initial_region_selection_scores
      [true] [true] [true]).normal_recall.calls =
        initial_region_selection_scores.normal_recall.calls + 1) :=
  ⟨by decide,
    (C2_empty_subset_update initial_region_selection_scores [true] [true] [true]).1
      (by decide)⟩

/-! ### Claim C3 -/

/-- C3, as stated, is false at a concrete input: for the reference list
containing the sentinel hash and a normal sentence, the reference strings
reaching the metric update are the sentinel and the sentence unchanged (not
the empty string), while the file written for audit renders the sentinel as
the empty string; the replacement happens only in write_sentences_to_file. -/
theorem C3_counterexample :
    (update_language_model_scores ⟨[], [], []⟩ ["gen0", "gen1"]
      ["#", "opacity noted"] [false, false]).all.map Prod.snd ≠
      ["", "opacity noted"] ∧
    write_sentences_to_file ["gen0", "gen1"] ["#", "opacity noted"] =
      "Generated sentence: gen0\nReference sentence: \n\nGenerated sentence: gen1\nReference sentence: opacity noted\n\n" := by
  constructor
  · decide
  · rfl

/-- C3 amended: every reference sentence, the sentinel hash included, is
passed unchanged to the text-similarity metric updates (no normalization
happens before a metric call), and the sentinel is rendered exactly like an
actual empty reference only when the sentences are written to the audit file. -/
theorem C3_sentinel_passthrough (s : LanguageModelBuffers)
    (generated reference : List String) (selected_region_is_abnormal : List Bool) :
    (update_language_model_scores s generated reference
      selected_region_is_abnormal).all = s.all ++ generated.zip reference ∧
    (∀ g : String, sentence_pair_lines g "#" = sentence_pair_lines g "") := by
  constructor
  · rfl
  · intro g
    rfl

/-! ### Claim C7 -/

/-- C7: the best-checkpoint entries of run_params are rewritten exactly when
the total validation loss of the pass is strictly below the lowest seen so
far; in that case the save path embeds the achieved loss (three decimals) and
the epoch number, and the model state snapshot is stored; otherwise all four
best-checkpoint entries are left unchanged. -/
theorem C7_best_checkpoint (run_params : RunParams) (total_val_loss : ℚ)
    (model_state : List ℚ) :
    (total_val_loss < run_params.lowest_val_loss →
      update_best_checkpoint run_params total_val_loss model_state =
        { run_params with
          lowest_val_loss := total_val_loss,
          best_epoch := run_params.epoch,
          best_model_save_path := run_params.weights_folder_path ++ "/" ++ "val_loss_" ++
            fmt3 total_val_loss ++ "_epoch_" ++ toString run_params.epoch ++ ".pth",
          best_model_state := model_state }) ∧
    (¬total_val_loss < run_params.lowest_val_loss →
      update_best_checkpoint run_params total_val_loss model_state = run_params) := by
  constructor
  · intro h
    simp [update_best_checkpoint, h]
  · intro h
    simp [update_best_checkpoint, h]

/-- Witness for C7_best_checkpoint: a strictly improving pass rewrites the
four entries, and the rendered loss in the path is the achieved 1.000. -/
theorem C7_witness :
    (1 : ℚ) < 2 ∧
    update_best_checkpoint ⟨2, 0, "none", [], 5, "w"⟩ 1 [3] =
      { lowest_val_loss := 1, best_epoch := 5,
        best_model_save_path := "w" ++ "/" ++ "val_loss_" ++ fmt3 1 ++ "_epoch_" ++
          toString (5 : ℕ) ++ ".pth",
        best_model_state := [3], epoch := 5, weights_folder_path := "w" } ∧
    fmt3 1 = "1.000" :=
  ⟨by norm_num, (C7_best_checkpoint ⟨2, 0, "none", [], 5, "w"⟩ 1 [3]).1 (by norm_num),
    by
      have h : round_half_even ((1 : ℚ) * 1000) = 1000 := by norm_num [round_half_even]
      simp only [fmt3, h]
      norm_num [pad3]
      rfl⟩

/-! ### Claim C10 -/

/-- C10: every reported validation loss (the total as well as each per-module
loss follows this same accumulation) is the sum over batches of batch-mean
loss times batch size, divided by the number of batches of the validation
loader; on a stream with a smaller final batch and equal batch means it
differs from the per-image mean loss, which would divide by the number of
images. -/
theorem C10_loss_normalization :
    (∀ batches : List (ℚ × ℕ),
      reported_val_loss batches =
        (batches.map (fun b => b.1 * (b.2 : ℚ))).sum / (batches.length : ℚ)) ∧
    reported_val_loss [(1, 2), (1, 1)] = 3 / 2 ∧
    spec_per_image_mean_loss [(1, 2), (1, 1)] = 1 ∧
    reported_val_loss [(1, 2), (1, 1)] ≠ spec_per_image_mean_loss [(1, 2), (1, 1)] := by
  have hgen : ∀ batches : List (ℚ × ℕ),
      reported_val_loss batches =
        (batches.map (fun b => b.1 * (b.2 : ℚ))).sum / (batches.length : ℚ) := by
    intro batches
    unfold reported_val_loss sum_weighted_losses
    rw [foldl_add_map_eq_sum (fun b : ℚ × ℕ => b.1 * (b.2 : ℚ)) batches 0, zero_add]
  refine ⟨hgen, ?_, ?_, ?_⟩
  · rw [hgen]
    norm_num
  · unfold spec_per_image_mean_loss sum_weighted_losses
    norm_num
  · rw [hgen]
    unfold spec_per_image_mean_loss sum_weighted_losses
    norm_num

/-! ### Claim C9 -/

/-- C9: the abnormality-decision accumulator is gated on detection.  The
counts added by update_region_abnormal_metrics to both metrics are exactly
the confusion counts of the entries whose class_detected flag is true, and
inserting an extra entry with class_detected false anywhere leaves the whole
update result unchanged, so undetected entries are excluded entirely and in
particular are not counted as negatives. -/
theorem C9_abnormal_gated_on_detection (s : RegionAbnormalScores)
    (predicted_abnormal_regions region_is_abnormal class_detected : List Bool)
    (i : ℕ) (p a : Bool)
    (hlen : predicted_abnormal_regions.length = region_is_abnormal.length)
    (hdet : class_detected.length = predicted_abnormal_regions.length)
    (hi : i ≤ class_detected.length) :
    ((update_region_abnormal_metrics s predicted_abnormal_regions region_is_abnormal
        class_detected).precision.counts =
      add_counts s.precision.counts
        (mask_select class_detected (predicted_abnormal_regions.zip region_is_abnormal)) ∧
    (update_region_abnormal_metrics s predicted_abnormal_regions region_is_abnormal
        class_detected).recall_score.counts =
      add_counts s.recall_score.counts
        (mask_select class_detected (predicted_abnormal_regions.zip region_is_abnormal))) ∧
    update_region_abnormal_metrics s (predicted_abnormal_regions.insertIdx i p)
        (region_is_abnormal.insertIdx i a) (class_detected.insertIdx i false) =
      update_region_abnormal_metrics s predicted_abnormal_regions region_is_abnormal
        class_detected := by
  have hzip := mask_select_zip class_detected predicted_abnormal_regions
    region_is_abnormal hlen
  constructor
  · constructor
    · simp only [update_region_abnormal_metrics, metric_call, hzip]
    · simp only [update_region_abnormal_metrics, metric_call, hzip]
  · have h1 : mask_select (class_detected.insertIdx i false)
        (predicted_abnormal_regions.insertIdx i p) =
        mask_select class_detected predicted_abnormal_regions :=
      mask_select_insertIdx_false i class_detected predicted_abnormal_regions p hi hdet
    have h2 : mask_select (class_detected.insertIdx i false)
        (region_is_abnormal.insertIdx i a) =
        mask_select class_detected region_is_abnormal :=
      mask_select_insertIdx_false i class_detected region_is_abnormal a hi
        (hdet.trans hlen)
    simp only [update_region_abnormal_metrics, metric_call, h1, h2]

/-- Witness for C9_abnormal_gated_on_detection at a concrete batch with one
detected and one undetected entry, inserting a further undetected entry. -/
theorem C9_witness :
    ([true, false] : List Bool).length = ([true, true] : List Bool).length ∧
    ([true, false] : List Bool).length = ([true, false] : List Bool).length ∧
    (1 : ℕ) ≤ ([true, false] : List Bool).length ∧
    (((update_region_abnormal_metrics ⟨⟨⟨0, 0, 0, 0⟩, 0⟩, ⟨⟨0, 0, 0, 0⟩, 0⟩⟩
        [true, false] [true, true] [true, false]).precision.counts =
      add_counts ⟨0, 0, 0, 0⟩
        (mask_select [true, false] (([true, false] : List Bool).zip [true, true])) ∧
    (update_region_abnormal_metrics ⟨⟨⟨0, 0, 0, 0⟩, 0⟩, ⟨⟨0, 0, 0, 0⟩, 0⟩⟩
        [true, false] [true, true] [true, false]).recall_score.counts =
      add_counts ⟨0, 0, 0, 0⟩
        (mask_select [true, false] (([true, false] : List Bool).zip [true, true]))) ∧
    update_region_abnormal_metrics ⟨⟨⟨0, 0, 0, 0⟩, 0⟩, ⟨⟨0, 0, 0, 0⟩, 0⟩⟩
        (([true, false] : List Bool).insertIdx 1 true)
        (([true, true] : List Bool).insertIdx 1 true)
        (([true, false] : List Bool).insertIdx 1 false) =
      update_region_abnormal_metrics ⟨⟨⟨0, 0, 0, 0⟩, 0⟩, ⟨⟨0, 0, 0, 0⟩, 0⟩⟩
        [true, false] [true, true] [true, false]) :=
  ⟨by decide, by decide, by decide,
    C9_abnormal_gated_on_detection ⟨⟨⟨0, 0, 0, 0⟩, 0⟩, ⟨⟨0, 0, 0, 0⟩, 0⟩⟩
      [true, false] [true, true] [true, false] 1 true true
      (by decide) (by decide) (by decide)⟩

/-! ### Claim C8 -/

/-- Commuting the two boxes leaves the intersection box unchanged. -/
lemma intersection_box_comm (pred gt : Box) :
    intersection_box gt pred = intersection_box pred gt := by
  simp [intersection_box, max_comm, min_comm]

/-- Commuting the two boxes leaves intersection validity unchanged. -/
lemma valid_intersection_comm (pred gt : Box) (d : Bool) :
    valid_intersection gt pred d = valid_intersection pred gt d := by
  simp only [valid_intersection, max_comm gt.x0 pred.x0, min_comm gt.x1 pred.x1,
    max_comm gt.y0 pred.y0, min_comm gt.y1 pred.y1]

/-- Commuting the two boxes leaves the intersection-area contribution
unchanged. -/
lemma intersection_area_entry_comm (pred gt : Box) (d : Bool) :
    intersection_area_entry gt pred d = intersection_area_entry pred gt d := by
  simp only [intersection_area_entry, valid_intersection_comm, intersection_box_comm]

/-- Commuting the two boxes leaves the union-area contribution unchanged. -/
lemma union_area_entry_comm (pred gt : Box) :
    union_area_entry gt pred = union_area_entry pred gt := by
  simp only [union_area_entry, intersection_box_comm]
  ring

/-- C8: the accumulated intersection-area and union-area sums are invariant
under swapping which box array is called predicted and which ground truth
(for any entries and any fixed detected mask), a detected entry of two
identical non-degenerate boxes reduces to IoU 1, and an entry of two disjoint
boxes reduces to IoU 0. -/
theorem C8_overlap_symmetry :
    (∀ entries : List OverlapEntry,
      sum_intersection_area (entries.map swap_entry) = sum_intersection_area entries ∧
      sum_union_area (entries.map swap_entry) = sum_union_area entries) ∧
    (∀ b : Box, b.x0 < b.x1 → b.y0 < b.y1 → avg_iou [(b, b, true)] = 1) ∧
    (∀ pred gt : Box, ∀ d : Bool,
      (min pred.x1 gt.x1 ≤ max pred.x0 gt.x0 ∨ min pred.y1 gt.y1 ≤ max pred.y0 gt.y0) →
      sum_union_area [(pred, gt, d)] ≠ 0 → avg_iou [(pred, gt, d)] = 0) := by
  refine ⟨?_, ?_, ?_⟩
  · intro entries
    constructor
    · unfold sum_intersection_area
      rw [List.map_map]
      have hfun : ((fun e : OverlapEntry => intersection_area_entry e.1 e.2.1 e.2.2) ∘
          swap_entry) = fun e : OverlapEntry => intersection_area_entry e.1 e.2.1 e.2.2 :=
        funext fun e => intersection_area_entry_comm e.1 e.2.1 e.2.2
      rw [hfun]
    · unfold sum_union_area
      rw [List.map_map]
      have hfun : ((fun e : OverlapEntry => union_area_entry e.1 e.2.1) ∘ swap_entry) =
          fun e : OverlapEntry => union_area_entry e.1 e.2.1 :=
        funext fun e => union_area_entry_comm e.1 e.2.1
      rw [hfun]
  · intro b hx hy
    have h1 : intersection_box b b = b := by
      simp [intersection_box]
    have h2 : valid_intersection b b true = true := by
      simp [valid_intersection, h1, hx, hy]
    have hA : compute_box_area b ≠ 0 := by
      have : 0 < compute_box_area b := mul_pos (sub_pos.2 hx) (sub_pos.2 hy)
      exact ne_of_gt this
    unfold avg_iou sum_intersection_area sum_union_area
    simp only [List.map_cons, List.map_nil, List.sum_cons, List.sum_nil, add_zero]
    unfold intersection_area_entry union_area_entry
    rw [h1, h2]
    simp only [if_true]
    have hu : compute_box_area b + compute_box_area b - compute_box_area b =
        compute_box_area b := by ring
    rw [hu, div_self hA]
  · intro pred gt d hdisj hu
    have hvalid : valid_intersection pred gt d = false := by
      unfold valid_intersection
      rcases hdisj with h | h
      · have : decide (max pred.x0 gt.x0 < min pred.x1 gt.x1) = false :=
          decide_eq_false (not_lt.2 h)
        rw [this]
        simp
      · have : decide (max pred.y0 gt.y0 < min pred.y1 gt.y1) = false :=
          decide_eq_false (not_lt.2 h)
        rw [this]
        simp
    unfold avg_iou sum_intersection_area
    simp only [List.map_cons, List.map_nil, List.sum_cons, List.sum_nil, add_zero]
    unfold intersection_area_entry
    rw [hvalid]
    simp

/-- Witness for C8_overlap_symmetry: two identical detected unit boxes give
IoU 1, and two disjoint detected boxes give IoU 0. -/
theorem C8_witness :
    avg_iou [((⟨0, 0, 1, 1⟩ : Box), ⟨0, 0, 1, 1⟩, true)] = 1 ∧
    avg_iou [((⟨0, 0, 1, 1⟩ : Box), ⟨2, 2, 3, 3⟩, true)] = 0 :=
  ⟨C8_overlap_symmetry.2.1 ⟨0, 0, 1, 1⟩ (by norm_num) (by norm_num),
    C8_overlap_symmetry.2.2 ⟨0, 0, 1, 1⟩ ⟨2, 2, 3, 3⟩ true
      (by norm_num [min_def, max_def])
      (by norm_num [sum_union_area, union_area_entry, compute_box_area,
        intersection_box, min_def, max_def])⟩

/-! ### Claim C6 -/

/-- C6: avg_detections_per_region divides each per-region summed
detected-count by the total number of images seen, and
avg_num_detected_regions_per_image is the sum of those 36 per-region
averages, equal to the total detected-count divided by the image count; on
the two-image scenario where image A detects regions 0 and 1 and image B
detects region 0, the average is 3 / 2. -/
theorem C6_detection_averages (class_detected_images : List (List Bool))
    (num_images : ℕ) (h : 0 < num_images) :
    (∀ r < 36, (avg_detections_per_region class_detected_images num_images).getD r 0 =
      ((sum_region_detected class_detected_images).getD r 0 : ℚ) / num_images) ∧
    avg_num_detected_regions_per_image class_detected_images num_images =
      ((sum_region_detected class_detected_images).sum : ℚ) / num_images ∧
    avg_num_detected_regions_per_image
      [(List.range 36).map (fun k => decide (k < 2)),
       (List.range 36).map (fun k => decide (k < 1))] 2 = 3 / 2 := by
  have hdiv : ∀ (l : List ℕ) (n : ℕ),
      (l.map (fun c : ℕ => (c : ℚ) / n)).sum = (l.sum : ℚ) / n := by
    intro l n
    induction l with
    | nil => simp
    | cons x t ih =>
      simp only [List.map_cons, List.sum_cons, ih, List.sum_cons]
      push_cast
      ring
  have key : ∀ (imgs : List (List Bool)) (n : ℕ),
      avg_num_detected_regions_per_image imgs n =
        ((sum_region_detected imgs).sum : ℚ) / n := by
    intro imgs n
    unfold avg_num_detected_regions_per_image avg_detections_per_region
    exact hdiv _ n
  refine ⟨?_, key class_detected_images num_images, ?_⟩
  · intro r hr
    unfold avg_detections_per_region
    have hlen : r < (sum_region_detected class_detected_images).length := by
      unfold sum_region_detected
      simpa using hr
    exact getD_map_eq (fun c : ℕ => (c : ℚ) / num_images) _ r hlen 0 0
  · rw [key]
    have hsum : (sum_region_detected
        [(List.range 36).map (fun k => decide (k < 2)),
         (List.range 36).map (fun k => decide (k < 1))]).sum = 3 := by decide
    rw [hsum]
    norm_num

/-- Witness for C6_detection_averages at the two-image scenario with two
images seen. -/
theorem C6_witness :
    0 < 2 ∧
    ((∀ r < 36, (avg_detections_per_region
        [(List.range 36).map (fun k => decide (k < 2)),
         (List.range 36).map (fun k => decide (k < 1))] 2).getD r 0 =
      ((sum_region_detected
        [(List.range 36).map (fun k => decide (k < 2)),
         (List.range 36).map (fun k => decide (k < 1))]).getD r 0 : ℚ) / 2) ∧
    avg_num_detected_regions_per_image
        [(List.range 36).map (fun k => decide (k < 2)),
         (List.range 36).map (fun k => decide (k < 1))] 2 =
      ((sum_region_detected
        [(List.range 36).map (fun k => decide (k < 2)),
         (List.range 36).map (fun k => decide (k < 1))]).sum : ℚ) / 2 ∧
    avg_num_detected_regions_per_image
      [(List.range 36).map (fun k => decide (k < 2)),
       (List.range 36).map (fun k => decide (k < 1))] 2 = 3 / 2) :=
  ⟨by decide,
    C6_detection_averages
      [(List.range 36).map (fun k => decide (k < 2)),
       (List.range 36).map (fun k => decide (k < 1))] 2 (by decide)⟩

/-! ### Claim C4 -/

/-- C4: for an image with zero proposals the selector does not return 36
not-detected slots; the computation fails (torch.argmax reduces over the
empty proposal dimension and raises), modelled by the none result.  For any
image with at least one proposal the selector returns exactly 36 feature
slots and 36 detected-flags. -/
theorem C4_zero_proposals (region_features_empty : List (List ℚ)) :
    get_top_region_features_image [] region_features_empty = none ∧
    (∀ pred_scores_image region_features_image : List (List ℚ),
      pred_scores_image ≠ [] →
      ∃ top_features flags,
        get_top_region_features_image pred_scores_image region_features_image =
          some (top_features, flags) ∧
        top_features.length = 36 ∧ flags.length = 36) := by
  constructor
  · rfl
  · intro s f hs
    have hempty : s.isEmpty = false := by
      cases s with
      | nil => exact absurd rfl hs
      | cons a t => rfl
    refine ⟨(inds_regions_with_top_scores s).map (fun i => f.getD i []),
      class_not_predicted s, ?_, ?_, ?_⟩
    · unfold get_top_region_features_image
      rw [hempty]
      rfl
    · unfold inds_regions_with_top_scores
      simp
    · unfold class_not_predicted
      simp

/-- Witness for C4_zero_proposals at a concrete one-proposal image. -/
theorem C4_witness :
    ([List.replicate 36 (1 : ℚ)] : List (List ℚ)) ≠ [] ∧
    (∃ top_features flags,
      get_top_region_features_image [List.replicate 36 (1 : ℚ)] [[5]] =
        some (top_features, flags) ∧
      top_features.length = 36 ∧ flags.length = 36) :=
  ⟨by simp, (C4_zero_proposals []).2 [List.replicate 36 (1 : ℚ)] [[5]] (by simp)⟩

/-! ### Arg-max lemmas for Claim C5 -/

/-- Every element of a list is at most max_list. -/
lemma le_max_list (l : List ℚ) : ∀ x ∈ l, x ≤ max_list l := by
  induction l with
  | nil => intro x hx; cases hx
  | cons a t ih =>
    intro x hx
    cases t with
    | nil =>
      rcases List.mem_cons.mp hx with rfl | h
      · simp [max_list]
      · cases h
    | cons b t2 =>
      rcases List.mem_cons.mp hx with rfl | h
      · show x ≤ max x (max_list (b :: t2))
        exact le_max_left _ _
      · show x ≤ max a (max_list (b :: t2))
        exact le_trans (ih x h) (le_max_right _ _)

/-- The arg-max index of a nonempty list is within bounds. -/
lemma argmax_idx_lt_length (l : List ℚ) (h : l ≠ []) : argmax_idx l < l.length := by
  induction l with
  | nil => exact absurd rfl h
  | cons a t ih =>
    cases t with
    | nil => simp [argmax_idx]
    | cons b t2 =>
      by_cases hc : a < max_list (b :: t2)
      · have h2 : argmax_idx (b :: t2) < (b :: t2).length := ih (by simp)
        show (if a < max_list (b :: t2) then argmax_idx (b :: t2) + 1 else 0) <
          (a :: b :: t2).length
        rw [if_pos hc]
        simpa using Nat.succ_lt_succ h2
      · show (if a < max_list (b :: t2) then argmax_idx (b :: t2) + 1 else 0) <
          (a :: b :: t2).length
        rw [if_neg hc]
        simp

/-- The element at the arg-max index of a nonempty list is its maximum. -/
lemma getD_argmax_idx (l : List ℚ) (h : l ≠ []) :
    l.getD (argmax_idx l) 0 = max_list l := by
  induction l with
  | nil => exact absurd rfl h
  | cons a t ih =>
    cases t with
    | nil => simp [argmax_idx, max_list]
    | cons b t2 =>
      by_cases hc : a < max_list (b :: t2)
      · show (a :: b :: t2).getD
          (if a < max_list (b :: t2) then argmax_idx (b :: t2) + 1 else 0) 0 =
          max_list (a :: b :: t2)
        rw [if_pos hc, List.getD_cons_succ, ih (by simp)]
        show max_list (b :: t2) = max a (max_list (b :: t2))
        exact (max_eq_right hc.le).symm
      · show (a :: b :: t2).getD
          (if a < max_list (b :: t2) then argmax_idx (b :: t2) + 1 else 0) 0 =
          max_list (a :: b :: t2)
        rw [if_neg hc, List.getD_cons_zero]
        show a = max a (max_list (b :: t2))
        exact (max_eq_left (not_lt.mp hc)).symm

/-- Every index strictly before the arg-max index holds a value strictly below
the maximum: the arg max returns the first occurrence of the maximum. -/
lemma getD_lt_of_lt_argmax_idx (l : List ℚ) (j : ℕ) (h : j < argmax_idx l) :
    l.getD j 0 < max_list l := by
  induction l generalizing j with
  | nil => simp [argmax_idx] at h
  | cons a t ih =>
    cases t with
    | nil => simp [argmax_idx] at h
    | cons b t2 =>
      by_cases hc : a < max_list (b :: t2)
      · have h2 : j < argmax_idx (b :: t2) + 1 := by
          have := h
          rwa [show argmax_idx (a :: b :: t2) =
            (if a < max_list (b :: t2) then argmax_idx (b :: t2) + 1 else 0) from rfl,
            if_pos hc] at this
        cases j with
        | zero =>
          rw [List.getD_cons_zero]
          show a < max_list (a :: b :: t2)
          show a < max a (max_list (b :: t2))
          rw [max_eq_right hc.le]
          exact hc
        | succ k =>
          have hk : k < argmax_idx (b :: t2) := by omega
          rw [List.getD_cons_succ]
          have hlt := ih k hk
          show (b :: t2).getD k 0 < max a (max_list (b :: t2))
          rw [max_eq_right hc.le]
          exact hlt
      · have h0 : argmax_idx (a :: b :: t2) = 0 := by
          rw [show argmax_idx (a :: b :: t2) =
            (if a < max_list (b :: t2) then argmax_idx (b :: t2) + 1 else 0) from rfl,
            if_neg hc]
        rw [h0] at h
        cases h

/-- getD of an in-bounds index is an element of the list. -/
lemma getD_mem_of_lt {α : Type} (l : List α) (q : ℕ) (hq : q < l.length) (d : α) :
    l.getD q d ∈ l := by
  rw [List.getD_eq_getElem _ _ hq]
  exact List.getElem_mem hq

/-- The masked column has one entry per proposal. -/
lemma masked_column_length (s : List (List ℚ)) (r : ℕ) :
    (masked_column s r).length = s.length := by
  unfold masked_column
  exact List.length_map s _

/-- Entry q of the masked column is the proposal's score for r when it
predicts r and 0 otherwise. -/
lemma masked_column_getD (s : List (List ℚ)) (r q : ℕ) (hq : q < s.length) :
    (masked_column s r).getD q 0 =
      if pred_class (s.getD q []) = r then (s.getD q []).getD r 0 else 0 := by
  unfold masked_column
  exact getD_map_eq _ s q hq [] 0

/-! ### Claim C5 -/

/-- C5: for every image with at least one proposal, whose score rows have the
36 per-region entries and are strictly positive (softmax outputs), and every
region index r below 36: r is marked detected (class_not_predicted false) if
and only if some proposal has r as its arg-max region; and in that case the
selected proposal index points to a proposal predicting r whose score for r
is greatest among all proposals predicting r, every earlier proposal
predicting r has a strictly smaller score (exact ties are broken by the first
proposal in input order), and feature slot r of the output is the feature
vector of that selected proposal. -/
theorem C5_top_region_selection (pred_scores_image region_features_image : List (List ℚ))
    (r : ℕ) (hne : pred_scores_image ≠ [])
    (hrow : ∀ row ∈ pred_scores_image, row.length = 36)
    (hpos : ∀ row ∈ pred_scores_image, ∀ x ∈ row, 0 < x)
    (hr : r < 36) :
    ((class_not_predicted pred_scores_image).getD r true = false ↔
      (∃ p, p < pred_scores_image.length ∧
        pred_class (pred_scores_image.getD p []) = r)) ∧
    ((∃ p, p < pred_scores_image.length ∧
        pred_class (pred_scores_image.getD p []) = r) →
      selected_proposal_idx pred_scores_image r < pred_scores_image.length ∧
      pred_class (pred_scores_image.getD (selected_proposal_idx pred_scores_image r) []) =
        r ∧
      (∀ q, q < pred_scores_image.length →
        pred_class (pred_scores_image.getD q []) = r →
        (pred_scores_image.getD q []).getD r 0 ≤
          (pred_scores_image.getD (selected_proposal_idx pred_scores_image r) []).getD
            r 0) ∧
      (∀ q, q < selected_proposal_idx pred_scores_image r →
        pred_class (pred_scores_image.getD q []) = r →
        (pred_scores_image.getD q []).getD r 0 <
          (pred_scores_image.getD (selected_proposal_idx pred_scores_image r) []).getD
            r 0) ∧
      (∀ out, get_top_region_features_image pred_scores_image region_features_image =
          some out →
        out.1.getD r [] =
          region_features_image.getD (selected_proposal_idx pred_scores_image r) [])) := by
  have hq_pos : ∀ q, q < pred_scores_image.length →
      0 < (pred_scores_image.getD q []).getD r 0 := by
    intro q hq
    have hmem : pred_scores_image.getD q [] ∈ pred_scores_image :=
      getD_mem_of_lt pred_scores_image q hq []
    have hlen36 : (pred_scores_image.getD q []).length = 36 := hrow _ hmem
    have hr36 : r < (pred_scores_image.getD q []).length := by rw [hlen36]; exact hr
    exact hpos _ hmem _ (getD_mem_of_lt _ r hr36 0)
  constructor
  · have hA1 : (class_not_predicted pred_scores_image).getD r true =
        (num_predictions_per_class pred_scores_image r == 0) := by
      unfold class_not_predicted
      rw [getD_map_eq (fun r2 => num_predictions_per_class pred_scores_image r2 == 0)
        (List.range 36) r (by simpa using hr) 0 true]
      rw [getD_range_eq 36 r hr 0]
    rw [hA1, beq_eq_false_iff_ne]
    constructor
    · intro hne0
      have hpos2 : 0 < num_predictions_per_class pred_scores_image r :=
        Nat.pos_of_ne_zero hne0
      unfold num_predictions_per_class at hpos2
      obtain ⟨row, hrow_mem, hp⟩ := List.countP_pos_iff.mp hpos2
      obtain ⟨q, hq, hEq⟩ := List.mem_iff_getElem.mp hrow_mem
      refine ⟨q, hq, ?_⟩
      rw [List.getD_eq_getElem _ _ hq, hEq]
      exact beq_iff_eq.mp hp
    · rintro ⟨q, hq, hqc⟩
      apply Nat.pos_iff_ne_zero.mp
      unfold num_predictions_per_class
      apply List.countP_pos_iff.mpr
      refine ⟨pred_scores_image.getD q [], getD_mem_of_lt pred_scores_image q hq [], ?_⟩
      simpa using hqc
  · rintro ⟨p0, hp0, hpc0⟩
    have hcolne : masked_column pred_scores_image r ≠ [] := by
      apply List.length_pos.mp
      rw [masked_column_length]
      exact List.length_pos.mpr hne
    have hi_col : selected_proposal_idx pred_scores_image r <
        (masked_column pred_scores_image r).length :=
      argmax_idx_lt_length _ hcolne
    have hi_lt : selected_proposal_idx pred_scores_image r < pred_scores_image.length := by
      rw [masked_column_length] at hi_col
      exact hi_col
    have hIMax : (masked_column pred_scores_image r).getD
        (selected_proposal_idx pred_scores_image r) 0 =
        max_list (masked_column pred_scores_image r) :=
      getD_argmax_idx _ hcolne
    have hp0_col : (masked_column pred_scores_image r).getD p0 0 =
        (pred_scores_image.getD p0 []).getD r 0 := by
      rw [masked_column_getD pred_scores_image r p0 hp0, if_pos hpc0]
    have hp0_mem : (masked_column pred_scores_image r).getD p0 0 ∈
        masked_column pred_scores_image r :=
      getD_mem_of_lt _ p0 (by rw [masked_column_length]; exact hp0) 0
    have hMax_pos : 0 < max_list (masked_column pred_scores_image r) := by
      have h1 := le_max_list _ _ hp0_mem
      rw [hp0_col] at h1
      exact lt_of_lt_of_le (hq_pos p0 hp0) h1
    have hIval := masked_column_getD pred_scores_image r
      (selected_proposal_idx pred_scores_image r) hi_lt
    have hpci : pred_class
        (pred_scores_image.getD (selected_proposal_idx pred_scores_image r) []) = r := by
      by_contra hcon
      rw [if_neg hcon] at hIval
      rw [hIval] at hIMax
      exact absurd hIMax.symm (ne_of_gt hMax_pos)
    have hIscore : (pred_scores_image.getD
        (selected_proposal_idx pred_scores_image r) []).getD r 0 =
        max_list (masked_column pred_scores_image r) := by
      rw [if_pos hpci] at hIval
      rw [← hIval]
      exact hIMax
    refine ⟨hi_lt, hpci, ?_, ?_, ?_⟩
    · intro q hq hqc
      have hq_col : (masked_column pred_scores_image r).getD q 0 =
          (pred_scores_image.getD q []).getD r 0 := by
        rw [masked_column_getD pred_scores_image r q hq, if_pos hqc]
      have hq_mem : (masked_column pred_scores_image r).getD q 0 ∈
          masked_column pred_scores_image r :=
        getD_mem_of_lt _ q (by rw [masked_column_length]; exact hq) 0
      have h1 := le_max_list _ _ hq_mem
      rw [hq_col] at h1
      rw [hIscore]
      exact h1
    · intro q hq hqc
      have hlt := getD_lt_of_lt_argmax_idx (masked_column pred_scores_image r) q hq
      have hq_len : q < pred_scores_image.length :=
        lt_trans hq hi_lt
      have hq_col : (masked_column pred_scores_image r).getD q 0 =
          (pred_scores_image.getD q []).getD r 0 := by
        rw [masked_column_getD pred_scores_image r q hq_len, if_pos hqc]
      rw [hq_col] at hlt
      rw [hIscore]
      exact hlt
    · intro out hout
      have hempty : pred_scores_image.isEmpty = false := by
        cases pred_scores_image with
        | nil => exact absurd rfl hne
        | cons a t => rfl
      unfold get_top_region_features_image at hout
      rw [hempty] at hout
      simp only [Bool.false_eq_true, if_false] at hout
      rw [Option.some.injEq] at hout
      subst hout
      show ((inds_regions_with_top_scores pred_scores_image).map
        (fun i => region_features_image.getD i [])).getD r [] =
        region_features_image.getD (selected_proposal_idx pred_scores_image r) []
      have hinds_len : r < (inds_regions_with_top_scores pred_scores_image).length := by
        unfold inds_regions_with_top_scores
        simpa using hr
      rw [getD_map_eq (fun i => region_features_image.getD i [])
        (inds_regions_with_top_scores pred_scores_image) r hinds_len 0 []]
      have hidx : (inds_regions_with_top_scores pred_scores_image).getD r 0 =
          selected_proposal_idx pred_scores_image r := by
        unfold inds_regions_with_top_scores
        rw [getD_map_eq (fun r2 => selected_proposal_idx pred_scores_image r2)
          (List.range 36) r (by simpa using hr) 0 0]
        rw [getD_range_eq 36 r hr 0]
      rw [hidx]

/-- Witness for C5_top_region_selection at a concrete two-proposal image whose
proposals both predict region 0 with scores 2 and 3. -/
theorem C5_witness :
    ([2 :: List.replicate 35 (1 : ℚ), 3 :: List.replicate 35 (1 : ℚ)] :
      List (List ℚ)) ≠ [] ∧
    (∀ row ∈ ([2 :: List.replicate 35 (1 : ℚ), 3 :: List.replicate 35 (1 : ℚ)] :
      List (List ℚ)), row.length = 36) ∧
    (∀ row ∈ ([2 :: List.replicate 35 (1 : ℚ), 3 :: List.replicate 35 (1 : ℚ)] :
      List (List ℚ)), ∀ x ∈ row, 0 < x) ∧
    (0 : ℕ) < 36 ∧
    (((class_not_predicted
        [2 :: List.replicate 35 (1 : ℚ), 3 :: List.replicate 35 (1 : ℚ)]).getD 0 true =
        false ↔
      (∃ p, p < ([2 :: List.replicate 35 (1 : ℚ), 3 :: List.replicate 35 (1 : ℚ)] :
          List (List ℚ)).length ∧
        pred_class (([2 :: List.replicate 35 (1 : ℚ), 3 :: List.replicate 35 (1 : ℚ)] :
          List (List ℚ)).getD p []) = 0)) ∧
    ((∃ p, p < ([2 :: List.replicate 35 (1 : ℚ), 3 :: List.replicate 35 (1 : ℚ)] :
          List (List ℚ)).length ∧
        pred_class (([2 :: List.replicate 35 (1 : ℚ), 3 :: List.replicate 35 (1 : ℚ)] :
          List (List ℚ)).getD p []) = 0) →
      selected_proposal_idx
        [2 :: List.replicate 35 (1 : ℚ), 3 :: List.replicate 35 (1 : ℚ)] 0 <
        ([2 :: List.replicate 35 (1 : ℚ), 3 :: List.replicate 35 (1 : ℚ)] :
          List (List ℚ)).length ∧
      pred_class (([2 :: List.replicate 35 (1 : ℚ), 3 :: List.replicate 35 (1 : ℚ)] :
        List (List ℚ)).getD (selected_proposal_idx
          [2 :: List.replicate 35 (1 : ℚ), 3 :: List.replicate 35 (1 : ℚ)] 0) []) = 0 ∧
      (∀ q, q < ([2 :: List.replicate 35 (1 : ℚ), 3 :: List.replicate 35 (1 : ℚ)] :
          List (List ℚ)).length →
        pred_class (([2 :: List.replicate 35 (1 : ℚ), 3 :: List.replicate 35 (1 : ℚ)] :
          List (List ℚ)).getD q []) = 0 →
        (([2 :: List.replicate 35 (1 : ℚ), 3 :: List.replicate 35 (1 : ℚ)] :
          List (List ℚ)).getD q []).getD 0 0 ≤
          (([2 :: List.replicate 35 (1 : ℚ), 3 :: List.replicate 35 (1 : ℚ)] :
            List (List ℚ)).getD (selected_proposal_idx
              [2 :: List.replicate 35 (1 : ℚ), 3 :: List.replicate 35 (1 : ℚ)] 0) []).getD
            0 0) ∧
      (∀ q, q < selected_proposal_idx
          [2 :: List.replicate 35 (1 : ℚ), 3 :: List.replicate 35 (1 : ℚ)] 0 →
        pred_class (([2 :: List.replicate 35 (1 : ℚ), 3 :: List.replicate 35 (1 : ℚ)] :
          List (List ℚ)).getD q []) = 0 →
        (([2 :: List.replicate 35 (1 : ℚ), 3 :: List.replicate 35 (1 : ℚ)] :
          List (List ℚ)).getD q []).getD 0 0 <
          (([2 :: List.replicate 35 (1 : ℚ), 3 :: List.replicate 35 (1 : ℚ)] :
            List (List ℚ)).getD (selected_proposal_idx
              [2 :: List.replicate 35 (1 : ℚ), 3 :: List.replicate 35 (1 : ℚ)] 0) []).getD
            0 0) ∧
      (∀ out, get_top_region_features_image
          [2 :: List.replicate 35 (1 : ℚ), 3 :: List.replicate 35 (1 : ℚ)]
          [[5], [7]] = some out →
        out.1.getD 0 [] = ([[5], [7]] : List (List ℚ)).getD (selected_proposal_idx
          [2 :: List.replicate 35 (1 : ℚ), 3 :: List.replicate 35 (1 : ℚ)] 0) []))) :=
  ⟨by simp, by decide, by decide, by decide,
    C5_top_region_selection
      [2 :: List.replicate 35 (1 : ℚ), 3 :: List.replicate 35 (1 : ℚ)] [[5], [7]] 0
      (by simp) (by decide) (by decide) (by decide)⟩
